import Mathlib

/-!
Verification of the Adaptive Noise Engine of the Image-Stochastic-Resonance
repository, shallowly embedded in Lean 4.

Pixel samples and all intermediate arithmetic are modelled over `ℚ`; a frame
is a triple of dimensions with a total data function (reads outside the
declared bounds are irrelevant to every statement, which quantifies only over
in-bounds coordinates).  Randomness (`np.random.normal`, `np.random.random`)
is made explicit: the random stream is a function parameter of the embedded
operation, so that one fixed stream corresponds to one fixed draw of the
Python program.  External library routines that the source calls
(`cv2.bilateralFilter`, PIL's enhance/resize) are likewise explicit function
parameters, constrained only by the contracts their types give in Python
(uint8 in / uint8 out, shape preserving).
-/

namespace ISR

/-- `np.clip(x, lo, hi)` = `min(hi, max(x, lo))` on scalars. -/
def npClip (x lo hi : ℚ) : ℚ := min hi (max x lo)

/-- `WeatherCondition` enum of `adaptive-sr.py`. -/
inductive WeatherCondition where
  | CLEAR | RAIN | FOG | SNOW
deriving DecidableEq, Repr

/-- `TimeOfDay` enum of `adaptive-sr.py`. -/
inductive TimeOfDay where
  | DAY | DAWN_DUSK | NIGHT
deriving DecidableEq, Repr

/-- `DrivingConditions` dataclass of `adaptive-sr.py`. -/
structure DrivingConditions where
  weather : WeatherCondition
  time_of_day : TimeOfDay
  vehicle_speed : ℚ
  ambient_light : ℚ
deriving DecidableEq, Repr

/-- `AdaptiveSR.weather_factors` lookup table. -/
def weather_factors : WeatherCondition → ℚ
  | .CLEAR => 1
  | .RAIN => 12/10
  | .FOG => 15/10
  | .SNOW => 13/10

/-- `AdaptiveSR.time_factors` lookup table. -/
def time_factors : TimeOfDay → ℚ
  | .DAY => 8/10
  | .DAWN_DUSK => 12/10
  | .NIGHT => 15/10

/-- `AdaptiveSR.base_noise_level`. -/
def base_noise_level : ℚ := 1/10

/-- `AdaptiveSR.max_noise_level`. -/
def max_noise_level : ℚ := 3/10

/-- `AdaptiveSR.calculate_noise_level` (adaptive-sr.py lines 57-88),
transcribed with exact rational constants. -/
def calculate_noise_level (conditions : DrivingConditions)
    (local_brightness local_contrast : ℚ) : ℚ :=
  let weather_factor := weather_factors conditions.weather
  let time_factor := time_factors conditions.time_of_day
  let speed_factor := 1 + (conditions.vehicle_speed / 130) * (2/10)
  let light_factor := 1 + (1 - npClip (conditions.ambient_light / 50000) 0 1) * (5/10)
  let brightness_factor := 1 + (1 - local_brightness) * (3/10)
  let contrast_factor := 1 + (1 - local_contrast) * (4/10)
  let noise_level := base_noise_level *
    (weather_factor * time_factor * speed_factor * light_factor *
      brightness_factor * contrast_factor)
  npClip noise_level base_noise_level max_noise_level

/-- The scalar noise-level formula exactly as the specification words it:
baseNoise * weatherFactor * timeFactor * (1 + (speed/130)*0.2)
* (1 + (1 - clamp(lux/50000,0,1))*0.5) * (1 + (1 - brightness)*0.3)
* (1 + (1 - contrast)*0.4), clamped into [baseNoise, maxNoise] = [0.1, 0.3]. -/
def specScalarLevel (conditions : DrivingConditions)
    (brightness contrast : ℚ) : ℚ :=
  npClip
    (base_noise_level * weather_factors conditions.weather *
      time_factors conditions.time_of_day *
      (1 + (conditions.vehicle_speed / 130) * (2/10)) *
      (1 + (1 - npClip (conditions.ambient_light / 50000) 0 1) * (5/10)) *
      (1 + (1 - brightness) * (3/10)) *
      (1 + (1 - contrast) * (4/10)))
    base_noise_level max_noise_level

/-- The all-upward scenario: Night, Fog, 0 km/h, 0 lux. -/
def nightFogConditions : DrivingConditions :=
  ⟨.FOG, .NIGHT, 0, 0⟩

/-- C1: the computed scalar noise level agrees with the specification's
closed-form clamped product for all conditions and brightness/contrast
in [0,1], and the all-black Night/Fog/0 km/h/0 lux scenario hits exactly
the upper clamp value 0.3. -/
theorem c1_scalar_noise_level_formula (conditions : DrivingConditions)
    (b c : ℚ) (hb0 : 0 ≤ b) (hb1 : b ≤ 1) (hc0 : 0 ≤ c) (hc1 : c ≤ 1) :
    calculate_noise_level conditions b c = specScalarLevel conditions b c ∧
    calculate_noise_level nightFogConditions 0 0 = 3/10 := by
  constructor
  · unfold calculate_noise_level specScalarLevel
    ring_nf
  · norm_num [calculate_noise_level, npClip, nightFogConditions, weather_factors,
      time_factors, base_noise_level, max_noise_level, min_def, max_def]

/-- Witness for C1 at conditions Clear/Day/0/0, brightness 1/2, contrast 1/2. -/
theorem c1_scalar_noise_level_formula_witness :
    calculate_noise_level ⟨.CLEAR, .DAY, 0, 0⟩ (1/2) (1/2)
      = specScalarLevel ⟨.CLEAR, .DAY, 0, 0⟩ (1/2) (1/2) ∧
    calculate_noise_level nightFogConditions 0 0 = 3/10 :=
  c1_scalar_noise_level_formula ⟨.CLEAR, .DAY, 0, 0⟩ (1/2) (1/2)
    (by norm_num) (by norm_num) (by norm_num) (by norm_num)

/-- Every weather factor in the table is positive. -/
theorem weather_factors_pos (w : WeatherCondition) : 0 < weather_factors w := by
  cases w <;> norm_num [weather_factors]

/-- Every time-of-day factor in the table is positive. -/
theorem time_factors_pos (t : TimeOfDay) : 0 < time_factors t := by
  cases t <;> norm_num [time_factors]

/-- `np.clip` with fixed bounds is monotone in its argument. -/
theorem npClip_mono {x y lo hi : ℚ} (h : x ≤ y) :
    npClip x lo hi ≤ npClip y lo hi :=
  min_le_min le_rfl (max_le_max h le_rfl)

/-- C7: holding all other inputs fixed, the scalar noise level is
non-increasing in ambient light and non-increasing in local brightness. -/
theorem c7_noise_level_antitone (w : WeatherCondition) (t : TimeOfDay)
    (sp : ℚ) (hsp : 0 ≤ sp) (b c : ℚ) (hb0 : 0 ≤ b) (hb1 : b ≤ 1)
    (hc0 : 0 ≤ c) (hc1 : c ≤ 1) (l1 l2 : ℚ) (hl : l1 ≤ l2)
    (b1 b2 : ℚ) (hb10 : 0 ≤ b1) (hb12 : b1 ≤ b2) (hb21 : b2 ≤ 1) (l : ℚ) :
    calculate_noise_level ⟨w, t, sp, l2⟩ b c
      ≤ calculate_noise_level ⟨w, t, sp, l1⟩ b c ∧
    calculate_noise_level ⟨w, t, sp, l⟩ b2 c
      ≤ calculate_noise_level ⟨w, t, sp, l⟩ b1 c := by
  have hwf := weather_factors_pos w
  have htf := time_factors_pos t
  have hsf : (1:ℚ) ≤ 1 + sp / 130 * (2/10) := by linarith
  have hcf : (1:ℚ) ≤ 1 + (1 - c) * (4/10) := by linarith
  have clip01_nonneg : ∀ x : ℚ, 0 ≤ npClip x 0 1 := fun x =>
    le_min (by norm_num) (le_max_right x 0)
  have clip01_le_one : ∀ x : ℚ, npClip x 0 1 ≤ 1 := fun x => min_le_left 1 _
  have lfac_ge_one : ∀ x : ℚ, (1:ℚ) ≤ 1 + (1 - npClip (x / 50000) 0 1) * (5/10) := by
    intro x
    have := clip01_le_one (x / 50000)
    linarith
  constructor
  · apply npClip_mono
    have hclip : npClip (l1 / 50000) 0 1 ≤ npClip (l2 / 50000) 0 1 :=
      npClip_mono (by linarith)
    have hlf : 1 + (1 - npClip (l2 / 50000) 0 1) * (5/10)
        ≤ 1 + (1 - npClip (l1 / 50000) 0 1) * (5/10) := by linarith
    have h1 := lfac_ge_one l1
    have h2 := lfac_ge_one l2
    have hbf : (1:ℚ) ≤ 1 + (1 - b) * (3/10) := by linarith
    have hbase : (0:ℚ) < base_noise_level := by norm_num [base_noise_level]
    gcongr
  · apply npClip_mono
    have hlf := lfac_ge_one l
    have hbf1 : (1:ℚ) ≤ 1 + (1 - b1) * (3/10) := by linarith
    have hbf2 : (1:ℚ) ≤ 1 + (1 - b2) * (3/10) := by linarith
    have hbf : 1 + (1 - b2) * (3/10) ≤ 1 + (1 - b1) * (3/10) := by linarith
    have hbase : (0:ℚ) < base_noise_level := by norm_num [base_noise_level]
    gcongr

/-- Witness for C7 at Clear/Day, speed 10, brightness/contrast 1/2,
lux pair (0, 1000) and brightness pair (0, 1/2). -/
theorem c7_noise_level_antitone_witness :
    calculate_noise_level ⟨.CLEAR, .DAY, 10, 1000⟩ (1/2) (1/2)
      ≤ calculate_noise_level ⟨.CLEAR, .DAY, 10, 0⟩ (1/2) (1/2) ∧
    calculate_noise_level ⟨.CLEAR, .DAY, 10, 7⟩ (1/2) (1/2)
      ≤ calculate_noise_level ⟨.CLEAR, .DAY, 10, 7⟩ 0 (1/2) :=
  c7_noise_level_antitone .CLEAR .DAY 10 (by norm_num) (1/2) (1/2)
    (by norm_num) (by norm_num) (by norm_num) (by norm_num) 0 1000
    (by norm_num) 0 (1/2) (by norm_num) (by norm_num) (by norm_num) 7

/-- A frame: a `height × width` array of pixels with `channels` samples per
pixel.  `data r c k` is the sample of channel `k` at row `r`, column `c`;
reads outside the declared bounds never influence any statement below. -/
structure Frame where
  height : ℕ
  width : ℕ
  channels : ℕ
  data : ℕ → ℕ → ℕ → ℚ

/-- Failures raised by the OpenCV routines the pipeline calls:
`cv2.cvtColor` asserts a non-empty 3- or 4-channel input, and unpacking
`cv2.split` into three names raises unless there are exactly 3 channels. -/
inductive CVError where
  | cvtColorError
  | splitError
deriving DecidableEq, Repr

/-- Resolution of one endpoint of a Python slice `a:b` against axis length
`n`: a negative index counts from the end, then the result is clamped
into `[0, n]`.  numpy never raises on out-of-range slice endpoints. -/
def sliceIdx (i : ℤ) (n : ℕ) : ℕ :=
  (min (max (if i < 0 then i + n else i) 0) (n : ℤ)).toNat

/-- `frame[y:y+h, x:x+w]` with numpy slicing semantics (silent clamping). -/
def numpySlice (frame : Frame) (x y w h : ℤ) : Frame :=
  let r0 := sliceIdx y frame.height
  let r1 := sliceIdx (y + h) frame.height
  let c0 := sliceIdx x frame.width
  let c1 := sliceIdx (x + w) frame.width
  ⟨r1 - r0, c1 - c0, frame.channels,
    fun r c k => frame.data (r0 + r) (c0 + c) k⟩

/-- The perceptual grayscale value of one pixel under `cv2.COLOR_BGR2GRAY`
(channel order B, G, R; the uint8 result is rounded). -/
def grayAt (frame : Frame) (r c : ℕ) : ℚ :=
  ((round ((299/1000) * frame.data r c 2 + (587/1000) * frame.data r c 1 +
      (114/1000) * frame.data r c 0) : ℤ) : ℚ)

/-- `cv2.cvtColor(frame, cv2.COLOR_BGR2GRAY)`: asserts a non-empty input
with 3 or 4 channels, and yields the grayscale plane. -/
def cvtColorBGR2GRAY (frame : Frame) : Except CVError (ℕ → ℕ → ℚ) :=
  if frame.height = 0 ∨ frame.width = 0 ∨
      (frame.channels ≠ 3 ∧ frame.channels ≠ 4) then
    .error .cvtColorError
  else
    .ok (grayAt frame)

/-- Sum of a 2D map over an `h × w` index grid. -/
def gridSum (h w : ℕ) (g : ℕ → ℕ → ℚ) : ℚ :=
  ∑ r in Finset.range h, ∑ c in Finset.range w, g r c

/-- Modelled approximation of the square root that `np.std` takes of the
variance; an integer-precision under-approximation of the exact square
root.  No claim below depends on the value this returns, only on the fact
that the standard deviation is some deterministic rational. -/
def ratSqrt (q : ℚ) : ℚ :=
  (Nat.sqrt (q.num.toNat * q.den) : ℚ) / (q.den : ℚ)

/-- `AdaptiveSR.detect_local_conditions` (adaptive-sr.py lines 44-55):
grayscale conversion, then mean and standard deviation normalized by 255. -/
def detect_local_conditions (frame : Frame) : Except CVError (ℚ × ℚ) :=
  match cvtColorBGR2GRAY frame with
  | .error e => .error e
  | .ok gray =>
      let n : ℚ := ((frame.height * frame.width : ℕ) : ℚ)
      let mean := gridSum frame.height frame.width gray / n
      let variance :=
        gridSum frame.height frame.width (fun r c => (gray r c - mean)^2) / n
      .ok (mean / 255, ratSqrt variance / 255)

/-- Truncation toward zero, as C casts of floats to integers behave. -/
def ratTrunc (q : ℚ) : ℤ := if 0 ≤ q then ⌊q⌋ else -⌊-q⌋

/-- `astype(np.uint8)` on a float value: truncate toward zero, wrap mod 256. -/
def npUint8 (q : ℚ) : ℚ := (((ratTrunc q).emod 256 : ℤ) : ℚ)

/-- A single image channel as a 2D map. -/
def Chan : Type := ℕ → ℕ → ℚ

/-- `AdaptiveSR._apply_sr_to_region` (adaptive-sr.py lines 125-145).
`bilateral` stands for `cv2.bilateralFilter(·, 9, 75, 75)`, an external
OpenCV routine taken as an explicit parameter (given the channel bounds
and the channel); `gauss k` is the standard-normal random stream drawn for
channel `k`, so the generated noise is `noise_level * 255 * gauss k r c`.
Unpacking `cv2.split` into `b, g, r` raises unless there are exactly
three channels. -/
def apply_sr_to_region (bilateral : ℕ → ℕ → Chan → Chan)
    (gauss : ℕ → ℕ → ℕ → ℚ) (region : Frame) (noise_level : ℚ) :
    Except CVError Frame :=
  if region.channels = 3 then
    .ok ⟨region.height, region.width, 3, fun r c k =>
      bilateral region.height region.width
        (fun r' c' =>
          npUint8 (npClip (region.data r' c' k + noise_level * 255 * gauss k r' c')
            0 255)) r c⟩
  else
    .error .splitError

/-- `AdaptiveSR.apply_sr` (adaptive-sr.py lines 90-123): optionally slice
out a region of interest, measure its statistics, compute the adaptive
noise level, process (the region on a copy of the frame, or the whole
frame), and return the result. -/
def apply_sr (bilateral : ℕ → ℕ → Chan → Chan) (gauss : ℕ → ℕ → ℕ → ℚ)
    (conditions : DrivingConditions) (frame : Frame)
    (roi : Option (ℤ × ℤ × ℤ × ℤ)) : Except CVError Frame :=
  let region := match roi with
    | some (x, y, w, h) => numpySlice frame x y w h
    | none => frame
  match detect_local_conditions region with
  | .error e => .error e
  | .ok (local_brightness, local_contrast) =>
      let noise_level :=
        calculate_noise_level conditions local_brightness local_contrast
      match roi with
      | some (x, y, w, h) =>
          match apply_sr_to_region bilateral gauss region noise_level with
          | .error e => .error e
          | .ok processed =>
              let r0 := sliceIdx y frame.height
              let r1 := sliceIdx (y + h) frame.height
              let c0 := sliceIdx x frame.width
              let c1 := sliceIdx (x + w) frame.width
              .ok ⟨frame.height, frame.width, frame.channels, fun r c k =>
                if r0 ≤ r ∧ r < r1 ∧ c0 ≤ c ∧ c < c1 then
                  processed.data (r - r0) (c - c0) k
                else frame.data r c k⟩
      | none => apply_sr_to_region bilateral gauss frame noise_level

/-- All in-bounds samples of a frame lie in the uint8 range [0, 255]. -/
def InRange255 (f : Frame) : Prop :=
  ∀ r < f.height, ∀ c < f.width, ∀ k < f.channels,
    0 ≤ f.data r c k ∧ f.data r c k ≤ 255

/-- The contract the external `cv2.bilateralFilter` satisfies on uint8
input: its output is again a uint8 channel, so every in-bounds sample of
the output lies in [0, 255]. -/
def UInt8Output (bilateral : ℕ → ℕ → Chan → Chan) : Prop :=
  ∀ h w g, (∀ r < h, ∀ c < w, 0 ≤ g r c ∧ g r c ≤ 255) →
    ∀ r < h, ∀ c < w,
      0 ≤ bilateral h w g r c ∧ bilateral h w g r c ≤ 255

/-- The uint8 cast always lands in [0, 255]. -/
theorem npUint8_mem (q : ℚ) : 0 ≤ npUint8 q ∧ npUint8 q ≤ 255 := by
  unfold npUint8
  constructor
  · exact_mod_cast Int.emod_nonneg (ratTrunc q) (by norm_num)
  · have := Int.emod_lt_of_pos (ratTrunc q) (show (0:ℤ) < 256 by norm_num)
    exact_mod_cast Int.lt_add_one_iff.mp this

/-- Characterization of a successful `_apply_sr_to_region` call. -/
theorem apply_sr_to_region_ok {bilateral : ℕ → ℕ → Chan → Chan}
    {gauss : ℕ → ℕ → ℕ → ℚ} {region : Frame} {noise_level : ℚ} {out : Frame}
    (hok : apply_sr_to_region bilateral gauss region noise_level = .ok out) :
    region.channels = 3 ∧
    out = ⟨region.height, region.width, 3, fun r c k =>
      bilateral region.height region.width
        (fun r' c' =>
          npUint8 (npClip (region.data r' c' k + noise_level * 255 * gauss k r' c')
            0 255)) r c⟩ := by
  unfold apply_sr_to_region at hok
  split at hok
  · exact ⟨by assumption, (Except.ok.inj hok).symm⟩
  · cases hok

/-- C2: a successful `apply_sr` preserves height, width and channel count,
and (given the uint8 contracts of the input frame and of the bilateral
filter) every sample of the output lies in [0, 255]. -/
theorem c2_apply_sr_shape_and_range (bilateral : ℕ → ℕ → Chan → Chan)
    (gauss : ℕ → ℕ → ℕ → ℚ) (conditions : DrivingConditions) (frame : Frame)
    (roi : Option (ℤ × ℤ × ℤ × ℤ)) (out : Frame)
    (hbil : UInt8Output bilateral) (hframe : InRange255 frame)
    (hok : apply_sr bilateral gauss conditions frame roi = .ok out) :
    out.height = frame.height ∧ out.width = frame.width ∧
      out.channels = frame.channels ∧ InRange255 out := by
  rcases roi with _ | ⟨x, y, w, h⟩
  · simp only [apply_sr] at hok
    rcases hdet : detect_local_conditions frame with e | ⟨lb, lc⟩ <;>
      rw [hdet] at hok
    · cases hok
    · simp only at hok
      obtain ⟨hch, hout⟩ := apply_sr_to_region_ok hok
      subst hout
      refine ⟨rfl, rfl, hch.symm, ?_⟩
      intro r hr c hc k _
      exact hbil frame.height frame.width _
        (fun _ _ _ _ => npUint8_mem _) r hr c hc
  · simp only [apply_sr] at hok
    rcases hdet : detect_local_conditions (numpySlice frame x y w h) with e | ⟨lb, lc⟩ <;>
      rw [hdet] at hok
    · cases hok
    · simp only at hok
      rcases hreg : apply_sr_to_region bilateral gauss (numpySlice frame x y w h)
          (calculate_noise_level conditions lb lc) with e | processed <;>
        rw [hreg] at hok
      · cases hok
      · simp only at hok
        obtain ⟨hch, hproc⟩ := apply_sr_to_region_ok hreg
        rw [← Except.ok.inj hok]
        refine ⟨rfl, rfl, rfl, ?_⟩
        intro r hr c hc k hk
        simp only
        split
        · next hin =>
          subst hproc
          apply hbil _ _ _ (fun _ _ _ _ => npUint8_mem _)
          · simp only [numpySlice]
            omega
          · simp only [numpySlice]
            omega
        · exact hframe r hr c hc k hk

/-- A bilateral-filter stand-in that satisfies the uint8 output contract. -/
def bilateral0 : ℕ → ℕ → Chan → Chan := fun _ _ _ _ _ => 0

/-- The constant-zero random stream. -/
def gauss0 : ℕ → ℕ → ℕ → ℚ := fun _ _ _ => 0

/-- A 2×2, 3-channel frame with every sample equal to 100. -/
def frame100 : Frame := ⟨2, 2, 3, fun _ _ _ => 100⟩

/-- Clear daytime conditions at 0 km/h and 0 lux. -/
def cond0 : DrivingConditions := ⟨.CLEAR, .DAY, 0, 0⟩

/-- Witness for C2: the full-frame pipeline on a concrete 2×2 frame. -/
theorem c2_apply_sr_shape_and_range_witness :
    ∃ out, apply_sr bilateral0 gauss0 cond0 frame100 none = .ok out ∧
      (out.height = frame100.height ∧ out.width = frame100.width ∧
        out.channels = frame100.channels ∧ InRange255 out) := by
  obtain ⟨out, hok⟩ : ∃ out,
      apply_sr bilateral0 gauss0 cond0 frame100 none = .ok out := ⟨_, rfl⟩
  refine ⟨out, hok, ?_⟩
  refine c2_apply_sr_shape_and_range bilateral0 gauss0 cond0 frame100 none out
    ?_ ?_ hok
  · intro _ _ _ _ _ _ _ _
    exact ⟨le_refl 0, by norm_num [bilateral0]⟩
  · intro _ _ _ _ _ _
    exact ⟨by norm_num [frame100], by norm_num [frame100]⟩

/-- A slice endpoint already inside `[0, n]` resolves to itself. -/
theorem sliceIdx_of_le {i : ℤ} {n : ℕ} (h0 : 0 ≤ i) (h1 : i ≤ n) :
    sliceIdx i n = i.toNat := by
  unfold sliceIdx
  rw [if_neg (not_lt.mpr h0), max_eq_left h0, min_eq_left h1]

/-- C3: when the ROI is a valid sub-rectangle of the frame, a successful
`apply_sr` leaves every pixel outside that rectangle identical to the
input; the input frame itself is never written (the embedding is a pure
function of it — the source writes only into `frame.copy()`). -/
theorem c3_roi_preserves_outside (bilateral : ℕ → ℕ → Chan → Chan)
    (gauss : ℕ → ℕ → ℕ → ℚ) (conditions : DrivingConditions) (frame : Frame)
    (x y w h : ℤ) (out : Frame)
    (hx : 0 ≤ x) (hy : 0 ≤ y) (hw : 0 ≤ w) (hh : 0 ≤ h)
    (hxw : x + w ≤ frame.width) (hyh : y + h ≤ frame.height)
    (hok : apply_sr bilateral gauss conditions frame (some (x, y, w, h)) = .ok out)
    (r c : ℕ)
    (hout : ¬ (y ≤ (r:ℤ) ∧ (r:ℤ) < y + h ∧ x ≤ (c:ℤ) ∧ (c:ℤ) < x + w)) :
    ∀ k, out.data r c k = frame.data r c k := by
  intro k
  simp only [apply_sr] at hok
  rcases hdet : detect_local_conditions (numpySlice frame x y w h) with e | ⟨lb, lc⟩ <;>
    rw [hdet] at hok
  · cases hok
  · simp only at hok
    rcases hreg : apply_sr_to_region bilateral gauss (numpySlice frame x y w h)
        (calculate_noise_level conditions lb lc) with e | processed <;>
      rw [hreg] at hok
    · cases hok
    · simp only at hok
      rw [← Except.ok.inj hok]
      simp only
      rw [sliceIdx_of_le hy (by omega), sliceIdx_of_le (by omega) hyh,
        sliceIdx_of_le hx (by omega), sliceIdx_of_le (by omega) hxw]
      rw [if_neg (by omega)]

/-- Witness for C3: frame100 with ROI (0,0,1,1); the pixel (0,1) is outside
and keeps its value 100. -/
theorem c3_roi_preserves_outside_witness :
    ∃ out, apply_sr bilateral0 gauss0 cond0 frame100 (some (0, 0, 1, 1)) = .ok out ∧
      out.data 0 1 0 = frame100.data 0 1 0 := by
  obtain ⟨out, hok⟩ : ∃ out,
      apply_sr bilateral0 gauss0 cond0 frame100 (some (0, 0, 1, 1)) = .ok out :=
    ⟨_, rfl⟩
  exact ⟨out, hok,
    c3_roi_preserves_outside bilateral0 gauss0 cond0 frame100 0 0 1 1 out
      (by norm_num) (by norm_num) (by norm_num) (by norm_num)
      (by norm_num [frame100]) (by norm_num [frame100]) hok 0 1
      (by norm_num) 0⟩

/-- C8 counterexample: on the 2×2 frame100, the ROI (x,y,w,h) = (1,1,5,5)
extends past both frame edges (1 + 5 > 2), yet `apply_sr` raises no error:
numpy slicing silently clamps the rectangle and the clamped region is
processed normally. -/
theorem c8_invalid_roi_not_rejected :
    ((1:ℤ) + 5 > (frame100.width : ℤ)) ∧
    ∃ out, apply_sr bilateral0 gauss0 cond0 frame100 (some (1, 1, 5, 5)) = .ok out :=
  ⟨by norm_num [frame100], ⟨_, rfl⟩⟩

/-- C8 amended: `apply_sr` performs no region validation.  An ROI is
silently clamped by numpy slicing to its intersection with the frame; if
that intersection is non-empty (and the frame has 3 channels) processing
succeeds on the intersection, and only an ROI whose intersection is empty
(non-positive width/height, or fully outside) makes the call fail — with
the assertion error of the grayscale conversion inside the statistics
step, not with a region check. -/
theorem c8_roi_clamping_behavior (bilateral : ℕ → ℕ → Chan → Chan)
    (gauss : ℕ → ℕ → ℕ → ℚ) (conditions : DrivingConditions) (frame : Frame)
    (x y w h : ℤ) (hch : frame.channels = 3) :
    (0 < (numpySlice frame x y w h).height ∧ 0 < (numpySlice frame x y w h).width →
      ∃ out, apply_sr bilateral gauss conditions frame (some (x, y, w, h)) = .ok out) ∧
    ((numpySlice frame x y w h).height = 0 ∨ (numpySlice frame x y w h).width = 0 →
      apply_sr bilateral gauss conditions frame (some (x, y, w, h)) =
        .error .cvtColorError) := by
  constructor
  · rintro ⟨hH, hW⟩
    have hcv : cvtColorBGR2GRAY (numpySlice frame x y w h) =
        .ok (grayAt (numpySlice frame x y w h)) := by
      unfold cvtColorBGR2GRAY
      rw [if_neg]
      have hc : (numpySlice frame x y w h).channels = 3 := hch
      omega
    simp only [apply_sr, detect_local_conditions, hcv]
    unfold apply_sr_to_region
    rw [if_pos (show (numpySlice frame x y w h).channels = 3 from hch)]
    exact ⟨_, rfl⟩
  · intro hemp
    have hcv : cvtColorBGR2GRAY (numpySlice frame x y w h) =
        .error .cvtColorError := by
      unfold cvtColorBGR2GRAY
      rw [if_pos]
      omega
    simp only [apply_sr, detect_local_conditions, hcv]

/-- Witness for C8's amended statement at frame100 with the clamped ROI
(1,1,5,5), whose intersection with the frame is the single pixel (1,1). -/
theorem c8_roi_clamping_behavior_witness :
    ∃ out, apply_sr bilateral0 gauss0 cond0 frame100 (some (1, 1, 5, 5)) = .ok out :=
  (c8_roi_clamping_behavior bilateral0 gauss0 cond0 frame100 1 1 5 5 rfl).1
    (by norm_num [numpySlice, sliceIdx, frame100])

/-- C10: on a single-channel frame both the statistics step (the
BGR-to-gray conversion asserts 3 or 4 channels) and the filter step
(unpacking `cv2.split` into three channels) fail before producing any
output. -/
theorem c10_grayscale_frame_rejected (frame : Frame) (hch : frame.channels = 1)
    (bilateral : ℕ → ℕ → Chan → Chan) (gauss : ℕ → ℕ → ℕ → ℚ)
    (noise_level : ℚ) :
    detect_local_conditions frame = .error .cvtColorError ∧
    apply_sr_to_region bilateral gauss frame noise_level = .error .splitError := by
  constructor
  · have hcv : cvtColorBGR2GRAY frame = .error .cvtColorError := by
      unfold cvtColorBGR2GRAY
      rw [if_pos]
      omega
    simp only [detect_local_conditions, hcv]
  · unfold apply_sr_to_region
    rw [if_neg]
    omega

/-- A 1×1 single-channel (grayscale) frame with sample value 5. -/
def frameGray : Frame := ⟨1, 1, 1, fun _ _ _ => 5⟩

/-- Witness for C10 on the concrete grayscale frame. -/
theorem c10_grayscale_frame_rejected_witness :
    detect_local_conditions frameGray = .error .cvtColorError ∧
    apply_sr_to_region bilateral0 gauss0 frameGray (1/10) = .error .splitError :=
  c10_grayscale_frame_rejected frameGray rfl bilateral0 gauss0 (1/10)

/-! Salt-and-pepper noise of `sr_gui.py` (`apply_image_modifications`,
lines 231-254).  A single 2D uniform(0,1) mask drives both masks. -/

/-- `salt_mask = noise_mask < noise_value / 2` (sr_gui.py line 234). -/
def salt_mask (u noise_value : ℚ) : Prop := u < noise_value / 2

/-- `pepper_mask = noise_mask > 1 - noise_value / 2` (sr_gui.py line 235). -/
def pepper_mask (u noise_value : ℚ) : Prop := u > 1 - noise_value / 2

instance (u v : ℚ) : Decidable (salt_mask u v) :=
  inferInstanceAs (Decidable (u < v / 2))

instance (u v : ℚ) : Decidable (pepper_mask u v) :=
  inferInstanceAs (Decidable (u > 1 - v / 2))

/-- The `salt_pepper_noise` array: zero-initialized, then 255 on the salt
mask, then 0 on the pepper mask (the later assignment wins on overlap).
Every channel of a pixel receives the same value. -/
def salt_pepper_noise (mask : ℕ → ℕ → ℚ) (noise_value : ℚ)
    (r c : ℕ) : ℚ :=
  if pepper_mask (mask r c) noise_value then 0
  else if salt_mask (mask r c) noise_value then 255
  else 0

/-- The final application
`noise_image = np.where(salt_pepper_noise != 0, salt_pepper_noise, noise_image)`
(sr_gui.py line 253). -/
def sp_apply (img : Frame) (mask : ℕ → ℕ → ℚ) (noise_value : ℚ) :
    Frame :=
  ⟨img.height, img.width, img.channels, fun r c k =>
    if salt_pepper_noise mask noise_value r c ≠ 0 then
      salt_pepper_noise mask noise_value r c
    else img.data r c k⟩

/-- C5 (code bug exhibit): a pixel flagged pepper is NOT set to 0 — with
pixel value 128, noise level 1/2 and draw 9/10 (which is > 1 - 1/4, so the
pepper mask holds), the output keeps the value 128, because `np.where`
cannot distinguish the pepper value 0 from the zero initialization of
`salt_pepper_noise`. -/
theorem c5_pepper_branch_is_noop :
    pepper_mask (9/10) (1/2) ∧
    (sp_apply ⟨1, 1, 1, fun _ _ _ => 128⟩ (fun _ _ => 9/10) (1/2)).data 0 0 0 = 128 ∧
    (128 : ℚ) ≠ 0 := by
  refine ⟨by norm_num [pepper_mask], ?_, by norm_num⟩
  norm_num [sp_apply, salt_pepper_noise, pepper_mask, salt_mask]

/-- C6: for noise levels in [0,1] no draw can satisfy the salt mask and
the pepper mask at once. -/
theorem c6_masks_mutually_exclusive (u v : ℚ) (hv0 : 0 ≤ v) (hv1 : v ≤ 1) :
    ¬ (salt_mask u v ∧ pepper_mask u v) := by
  rintro ⟨hs, hp⟩
  unfold salt_mask at hs
  unfold pepper_mask at hp
  linarith

/-- Witness for C6 at draw 1/2, noise level 1. -/
theorem c6_masks_mutually_exclusive_witness :
    ¬ (salt_mask (1/2) 1 ∧ pepper_mask (1/2) 1) :=
  c6_masks_mutually_exclusive (1/2) 1 (by norm_num) (by norm_num)

/-! The seeded noise refresh of `sr_video_gui.py`
(`apply_image_modifications`, lines 182-210).  PIL's brightness/contrast
enhancers and the LANCZOS resize are external deterministic routines,
passed in as function parameters; `gen st` is the standard-normal stream
numpy produces from global-RNG state `st`, and `np.random.seed(s)`
replaces that state by `s`. -/

/-- `PsychophysicsTestApp.apply_image_modifications` of sr_video_gui.py:
brightness, contrast, optional reseeding, Gaussian noise cast to uint8,
uint8 addition (which wraps mod 256), clip, and resize. -/
def apply_image_modifications_v (enhB enhC : ℚ → Frame → Frame)
    (resizeL : ℕ × ℕ → Frame → Frame) (gen : ℕ → ℕ → ℕ → ℕ → ℚ)
    (rng_state : ℕ) (pil_image : Frame)
    (brightness_value contrast_value noise_value : ℚ)
    (target_size : ℕ × ℕ) (noise_seed : Option ℕ) : Frame :=
  let brightness_image := enhB brightness_value pil_image
  let contrast_image := enhC contrast_value brightness_image
  let noise_image := contrast_image
  let st := match noise_seed with
    | some s => s
    | none => rng_state
  let noise := fun r c k => npUint8 (noise_value * 255 * gen st r c k)
  let noisy_image : Frame :=
    ⟨noise_image.height, noise_image.width, noise_image.channels,
      fun r c k =>
        npUint8 (npClip (npUint8 (noise_image.data r c k + noise r c k)) 0 255)⟩
  resizeL target_size noisy_image

/-- C4: with an explicit seed, the processed output is a function of the
inputs alone — whatever the incoming global RNG state was, two calls with
identical image, brightness, contrast, noise level, target size and the
same seed produce identical output buffers. -/
theorem c4_seeded_calls_deterministic (enhB enhC : ℚ → Frame → Frame)
    (resizeL : ℕ × ℕ → Frame → Frame) (gen : ℕ → ℕ → ℕ → ℕ → ℚ)
    (st1 st2 : ℕ) (pil_image : Frame) (bv cv nv : ℚ) (ts : ℕ × ℕ) (s : ℕ) :
    apply_image_modifications_v enhB enhC resizeL gen st1 pil_image bv cv nv ts
        (some s) =
      apply_image_modifications_v enhB enhC resizeL gen st2 pil_image bv cv nv ts
        (some s) := rfl

/-! The purely image-driven spatial pipeline of `sr_sandbox.py`
(`adaptive_sr`, lines 69-84). -/

/-- OpenCV's default BORDER_REFLECT_101 index folding for an axis of
length `n` (reflection without repeating the edge pixel). -/
def reflect101 (i : ℤ) (n : ℕ) : ℕ :=
  if n ≤ 1 then 0
  else
    let p : ℤ := 2 * n - 2
    let m := i.emod p
    if m < n then m.toNat else (p - m).toNat

/-- `cv2.boxFilter(·, -1, (21,21))`: the normalized 21×21 moving average,
anchored at the window center, with BORDER_REFLECT_101 edge handling. -/
def boxFilter21 (h w : ℕ) (g : ℕ → ℕ → ℚ) : ℕ → ℕ → ℚ := fun r c =>
  (∑ dr in Finset.range 21, ∑ dc in Finset.range 21,
    g (reflect101 ((r : ℤ) + dr - 10) h) (reflect101 ((c : ℤ) + dc - 10) w)) / 441

/-- The spatial noise map computed inside `adaptive_sr`:
`noise_map = base_noise * (1.0 - local_std/255.0)` where `local_std` is
the 21×21 box filter of the grayscale-reduced frame. -/
def adaptive_sr_noise_map (image : Frame) (base_noise : ℚ) : ℕ → ℕ → ℚ :=
  fun r c =>
    base_noise * (1 - boxFilter21 image.height image.width (grayAt image) r c / 255)

/-- The full `adaptive_sr` of sr_sandbox.py: per channel, standard-normal
noise scaled by the spatial map, added, clipped to [0,255] and cast to
uint8.  `gauss k` is the standard-normal stream drawn for channel `k`. -/
def sandbox_adaptive_sr (image : Frame) (base_noise : ℚ)
    (gauss : ℕ → ℕ → ℕ → ℚ) : Frame :=
  ⟨image.height, image.width, image.channels, fun r c k =>
    npUint8 (npClip
      (image.data r c k + gauss k r c * adaptive_sr_noise_map image base_noise r c)
      0 255)⟩

/-- The spatial-mode contract exactly as the specification words it:
`map = baseNoise * (1.0 - localContrast/255.0)`, elementwise. -/
def specLevelMap (baseNoise : ℚ) (localContrast : ℕ → ℕ → ℚ) : ℕ → ℕ → ℚ :=
  fun r c => baseNoise * (1 - localContrast r c / 255)

/-- An all-white 3×3 color frame. -/
def white255 : Frame := ⟨3, 3, 3, fun _ _ _ => 255⟩

/-- C9: the spatial noise map equals the specification formula elementwise
with the 21×21 box filter of the grayscale frame as local contrast, and no
clamp into [baseNoise, maxNoise] is applied to it: on an all-white frame
the map value is 0, strictly below baseNoise = 1/10. -/
theorem c9_spatial_noise_map_formula :
    (∀ (image : Frame) (base_noise : ℚ) (r c : ℕ),
      adaptive_sr_noise_map image base_noise r c =
        specLevelMap base_noise
          (boxFilter21 image.height image.width (grayAt image)) r c) ∧
    adaptive_sr_noise_map white255 (1/10) 0 0 = 0 ∧ (0 : ℚ) < 1/10 := by
  refine ⟨fun _ _ _ _ => rfl, ?_, by norm_num⟩
  have hg : ∀ r c, grayAt white255 r c = 255 := by
    intro r c
    unfold grayAt white255
    norm_num
  have hbox : boxFilter21 white255.height white255.width (grayAt white255) 0 0 = 255 := by
    unfold boxFilter21
    rw [Finset.sum_congr rfl fun dr _ => Finset.sum_congr rfl fun dc _ => hg _ _]
    simp [Finset.sum_const]
    norm_num
  unfold adaptive_sr_noise_map
  rw [hbox]
  norm_num

end ISR
